import Mathlib

set_option autoImplicit false

/-! Verification of the minitorch core: shallow embedding of
`minitorch/operators.py` and `minitorch/module.py`, together with theorems
about the properties the code satisfies. -/

namespace Minitorch

/-! Part one: `operators.py`.

Scalar numbers are modelled as rationals. Functions whose bodies can
`raise ValueError` (the failure the design's error taxonomy names
DomainError) are embedded in the `Except DomainError` monad; all other
functions are plain. -/

namespace operators

/-- Failure for an input outside a function's mathematical domain: the
`ValueError` raised by the source, named DomainError by the design. -/
inductive DomainError where
  | domainError
deriving DecidableEq

/-- Embedding of `operators.mul`: `return x * y`. -/
def mul (x y : ℚ) : ℚ := x * y

/-- Embedding of `operators.id`: `return x`. -/
def id (x : ℚ) : ℚ := x

/-- Embedding of `operators.add`: `return x + y`. -/
def add (x y : ℚ) : ℚ := x + y

/-- Embedding of `operators.neg`: `return -x`. -/
def neg (x : ℚ) : ℚ := -x

/-- Embedding of `operators.lt`: `return x < y`. -/
def lt (x y : ℚ) : Bool := x < y

/-- Embedding of `operators.eq`: `return x == y`. -/
def eq (x y : ℚ) : Bool := x = y

/-- Embedding of `operators.max`: `if (x >= y): return x` else `return y`. -/
def max (x y : ℚ) : ℚ := if x ≥ y then x else y

/-- Embedding of `operators.is_close`: `return abs(x - y) < 1e-5`. -/
def is_close (x y : ℚ) : Bool := |x - y| < 1 / 100000

/-- Embedding of `operators.relu`: `return max(0, x)`. -/
def relu (x : ℚ) : ℚ := max 0 x

/-- Embedding of `operators.inv`: raises `ValueError` when `x == 0`,
otherwise `return 1 / x`. -/
def inv (x : ℚ) : Except DomainError ℚ :=
  if x = 0 then .error .domainError else .ok (1 / x)

/-- Embedding of `operators.log`. The body is `return math.log(x)` with no
domain check of its own; `mathLog` stands for the external library function
`math.log`. The result is wrapped in the same error monad as the other
operators and is always `ok`, because the source body contains no `raise`
statement. -/
def log (mathLog : ℚ → ℚ) (x : ℚ) : Except DomainError ℚ := .ok (mathLog x)

/-- Embedding of `operators.log_back`: raises `ValueError` when `x <= 0`,
otherwise `return upstream_grad * (1 / x)`. -/
def log_back (x upstream_grad : ℚ) : Except DomainError ℚ :=
  if x ≤ 0 then .error .domainError else .ok (upstream_grad * (1 / x))

/-- Embedding of `operators.inv_back`: raises `ValueError` when `x == 0`,
otherwise `return upstream_grad * (-1 / (x ** 2))`. -/
def inv_back (x upstream_grad : ℚ) : Except DomainError ℚ :=
  if x = 0 then .error .domainError else .ok (upstream_grad * (-1 / x ^ 2))

/-- Embedding of `operators.relu_back`: `return upstream_grad if x > 0
else 0`. -/
def relu_back (x upstream_grad : ℚ) : ℚ :=
  if x > 0 then upstream_grad else 0

/-- Embedding of `operators.map`: the returned closure computes
`[func(x) for x in list]`. -/
def map {α β : Type} (func : α → β) (list : List α) : List β :=
  list.map func

/-- Embedding of `operators.zipWith`: the returned closure computes
`[func(x, y) for x, y in zip(list1, list2)]`. -/
def zipWith {α β γ : Type} (func : α → β → γ) (list1 : List α) (list2 : List β) : List γ :=
  (list1.zip list2).map fun p => func p.1 p.2

/-- Embedding of `operators.reduce`: the returned closure runs
`ans = start`, then `ans = func(ans, item)` for each item in order, and
returns `ans`. -/
def reduce {α β : Type} (func : β → α → β) (start : β) : List α → β
  | [] => start
  | item :: ls => reduce func (func start item) ls

/-- Embedding of `operators.negList`: `map(neg)` applied to the list. -/
def negList (l : List ℚ) : List ℚ := map neg l

/-- Embedding of `operators.addLists`: `zipWith(add)` applied to the two
lists. -/
def addLists (l1 l2 : List ℚ) : List ℚ := zipWith add l1 l2

/-- Embedding of `operators.sum`: `reduce(add, 0)` applied to the list. -/
def sum (l : List ℚ) : ℚ := reduce add 0 l

/-- Embedding of `operators.prod`: `reduce(mul, 1)` applied to the list. -/
def prod (l : List ℚ) : ℚ := reduce mul 1 l

end operators

/-! Part two: `module.py`.

Python dicts preserve insertion order, and assigning to an existing key
overwrites its value in place; they are modelled as association lists with
an order-preserving insert. The `Module` tree is a mutual inductive: a
module holds its parameter dict, its child-module dict and its `training`
flag. Parameter payloads (`Any` in the source) are opaque to all tree
mechanics and are modelled as integers; plain payloads expose no
`requires_grad_` capability, so that conditional branch of
`Parameter.__init__` and `Parameter.update` is a no-op for them. -/

/-- Payload stored in a `Parameter` (`Any` in the source). -/
abbrev Value := Int

/-- Embedding of class `Parameter`: `Parameter(x, name)` stores the payload
and the optional name. The `requires_grad_` propagation applies only to
payloads exposing that capability, which these plain payloads do not. -/
structure Parameter where
  value : Value
  name : Option String
deriving DecidableEq

/-- Embedding of `Parameter.update`: `self.value = x` (the
`requires_grad_` branch is a no-op for plain payloads). -/
def Parameter.update (p : Parameter) (x : Value) : Parameter :=
  { p with value := x }

/-- Dict read `d[k]` (guarded by `k in d`) on a Python dict modelled as an
association list. -/
def dictLookup {α : Type} : List (String × α) → String → Option α
  | [], _ => none
  | (n, x) :: rest, k => if n = k then some x else dictLookup rest k

/-- Dict write `d[k] = v`: overwriting an existing key keeps its position,
a new key is appended at the end. -/
def dictInsert {α : Type} : List (String × α) → String → α → List (String × α)
  | [], k, v => [(k, v)]
  | (n, x) :: rest, k, v =>
      if n = k then (n, v) :: rest else (n, x) :: dictInsert rest k v

mutual
/-- Embedding of class `Module`: the `_parameters` dict, the `_modules`
dict and the `training` flag. -/
inductive Module where
  | mk (params : List (String × Parameter)) (children : ModList) (training : Bool)
/-- The `_modules` dict of a `Module`: an insertion-ordered association
list of child names and child modules. -/
inductive ModList where
  | nil
  | cons (name : String) (m : Module) (rest : ModList)
end

/-- The `_parameters` dict of a module. -/
def Module.params : Module → List (String × Parameter)
  | .mk ps _ _ => ps

/-- The `_modules` dict of a module. -/
def Module.children : Module → ModList
  | .mk _ cs _ => cs

/-- The `training` flag of a module. -/
def Module.training : Module → Bool
  | .mk _ _ t => t

/-- Embedding of `Module.__init__`: both dicts empty, `training = True`. -/
def Module.init : Module := .mk [] .nil true

/-- Child-dict read: `self._modules[name]` guarded by `name in
self._modules`. -/
def ModList.lookup : ModList → String → Option Module
  | .nil, _ => none
  | .cons n m rest, k => if n = k then some m else rest.lookup k

/-- Child-dict write `self._modules[name] = module`: overwriting an
existing key keeps its position, a new key is appended at the end. -/
def ModList.insert : ModList → String → Module → ModList
  | .nil, k, v => .cons k v .nil
  | .cons n m rest, k, v =>
      if n = k then .cons n v rest else .cons n m (rest.insert k v)

/-- The values of a child dict, in order. -/
def ModList.values : ModList → List Module
  | .nil => []
  | .cons _ m rest => m :: rest.values

/-- The entries of a child dict, in order (observer used to state
properties about traversals). -/
def ModList.toList : ModList → List (String × Module)
  | .nil => []
  | .cons n m rest => (n, m) :: rest.toList

/-- Embedding of `Module.modules`:
`list(self.__dict__["_modules"].values())`. -/
def Module.modules (m : Module) : List Module := m.children.values

mutual
/-- Embedding of `Module._set_mode_recursive`: `self.training = mode`,
then `child._set_mode_recursive(mode)` for each child in order. -/
def Module.set_mode_recursive : Module → Bool → Module
  | .mk ps cs _, mode => .mk ps (cs.setModeAll mode) mode
/-- `_set_mode_recursive` applied to every module of a child dict. -/
def ModList.setModeAll : ModList → Bool → ModList
  | .nil, _ => .nil
  | .cons n m rest, mode => .cons n (m.set_mode_recursive mode) (rest.setModeAll mode)
end

/-- Embedding of `Module.train`: `self._set_mode_recursive(True)`. -/
def Module.train (m : Module) : Module := m.set_mode_recursive true

/-- Embedding of `Module.eval`: `self._set_mode_recursive(False)`. -/
def Module.eval (m : Module) : Module := m.set_mode_recursive false

mutual
/-- Observer for specification purposes: does every module of the tree
(the module itself and all its descendants) have `training = b`? -/
def Module.allTraining : Module → Bool → Bool
  | .mk _ cs t, b => (t == b) && cs.allTraining b
/-- `allTraining` over every module of a child dict. -/
def ModList.allTraining : ModList → Bool → Bool
  | .nil, _ => true
  | .cons _ m rest, b => m.allTraining b && rest.allTraining b
end

mutual
/-- Embedding of the inner generator `_named_parameters(module, prefix)` of
`Module.named_parameters`: first yield `(prefix + name, param)` for each
own parameter in order, then recurse into each child in order with the
prefix extended by the child's name plus a dot. -/
def Module.namedParametersAux : Module → String → List (String × Parameter)
  | .mk ps cs _, pfx =>
      (ps.map fun p => (pfx ++ p.1, p.2)) ++ ModList.namedParametersAux cs pfx
/-- The recursion of `_named_parameters` over a child dict: for each child
in order, recurse with the prefix extended by the child's name plus a
dot. -/
def ModList.namedParametersAux : ModList → String → List (String × Parameter)
  | .nil, _ => []
  | .cons n m rest, pfx =>
      Module.namedParametersAux m (pfx ++ n ++ ".") ++ ModList.namedParametersAux rest pfx
end

/-- Embedding of `Module.named_parameters`:
`list(_named_parameters(self))`, the inner generator starting with the
empty prefix. -/
def Module.named_parameters (m : Module) : List (String × Parameter) :=
  m.namedParametersAux ""

/-- Embedding of `Module.parameters`: the parameter component of each pair
of `named_parameters`, in the same order. -/
def Module.parameters (m : Module) : List Parameter :=
  m.named_parameters.map fun p => p.2

/-- Embedding of `Module.add_parameter`: `val = Parameter(v, k);
self.__dict__["_parameters"][k] = val; return val` — the updated module
together with the created parameter. -/
def Module.add_parameter : Module → String → Value → Module × Parameter
  | .mk ps cs t, k, v => (.mk (dictInsert ps k ⟨v, some k⟩) cs t, ⟨v, some k⟩)

/-- Embedding of `Module.add_module`: `self._modules[name] = module`. -/
def Module.add_module : Module → String → Module → Module
  | .mk ps cs t, name, module => .mk ps (cs.insert name module) t

/-- A value assigned to an attribute in `Module.__setattr__`: a
`Parameter`, a child `Module`, or any other (plain) value. -/
inductive AttrValue where
  | param (p : Parameter)
  | mod (m : Module)
  | plain (v : Value)

/-- Embedding of `Module.__setattr__`: a `Parameter` value is stored in
`self.__dict__["_parameters"]` under the field name; a `Module` value in
`self.__dict__["_modules"]`; any other value goes through
`super().__setattr__` to ordinary instance storage, outside both dicts,
which this tree model therefore leaves unchanged. -/
def Module.setattr : Module → String → AttrValue → Module
  | .mk ps cs t, key, .param val => .mk (dictInsert ps key val) cs t
  | .mk ps cs t, key, .mod val => .mk ps (cs.insert key val) t
  | m, _, .plain _ => m

/-- Result of `Module.__getattr__`: the registered `Parameter`, the
registered child `Module`, or the `None` sentinel (`Lookup.absent`). -/
inductive Lookup where
  | param (p : Parameter)
  | child (m : Module)
  | absent

/-- Embedding of `Module.__getattr__`: return the entry of
`self.__dict__["_parameters"]` when the key is there, else the entry of
`self.__dict__["_modules"]` when the key is there, else `None`. Total by
construction: the miss case is the explicit sentinel `Lookup.absent`,
never an exception. -/
def Module.getattr (m : Module) (key : String) : Lookup :=
  match dictLookup m.params key with
  | some p => .param p
  | none =>
    match m.children.lookup key with
    | some c => .child c
    | none => .absent

/-- How a call `instance(...)` can fail. `unimplemented` is the failure of
calling the `None` sentinel that attribute lookup returns when no
`forward` is registered (the class itself defines no `forward` method):
the forward-unimplemented failure of the design's error taxonomy.
`notCallable` is the failure of calling a registered `Parameter`, which is
not a function either. -/
inductive CallError where
  | unimplemented
  | notCallable
deriving DecidableEq

mutual
/-- Embedding of `Module.__call__`: `return self.forward(*args,
**kwargs)`. The class defines no `forward` method, so the name resolves
through `__getattr__`, in its order: the parameter dict first (a
`Parameter` is not callable), then the child dict (calling a child module
re-enters `__call__` on it), else the `None` sentinel, and calling `None`
fails. The `__getattr__` dispatch is fused with the child-dict search so
that the recursion is structural; `Module.call_getattr_forward` proves the
fused form equal to dispatching on `Module.getattr`. -/
def Module.call : Module → Except CallError Value
  | .mk ps cs _ =>
    match dictLookup ps "forward" with
    | some _ => .error .notCallable
    | none => ModList.callForward cs
/-- Search of the child dict for the key "forward" during `__call__`
dispatch: when found, the child is called; otherwise the lookup misses and
calling the `None` sentinel fails. -/
def ModList.callForward : ModList → Except CallError Value
  | .nil => .error .unimplemented
  | .cons n m rest =>
      if n = "forward" then m.call else rest.callForward
end

/-! Theorems. First the helper lemmas shared by the claim theorems, then
one theorem per claim (with a closed witness where the theorem carries
hypotheses). -/

/-- Element-wise description of `operators.zipWith`: wherever both inputs
have an `i`-th element, the output's `i`-th element is `func` of them. -/
theorem zipWith_getElem_some {α β γ : Type} (f : α → β → γ) :
    ∀ (xs : List α) (ys : List β) (i : ℕ) (a : α) (b : β),
      xs[i]? = some a → ys[i]? = some b →
      (operators.zipWith f xs ys)[i]? = some (f a b) := by
  intro xs
  induction xs with
  | nil => intro ys i a b ha _; simp at ha
  | cons x xs ih =>
    intro ys i a b ha hb
    cases ys with
    | nil => simp at hb
    | cons y ys =>
      cases i with
      | zero =>
        simp only [List.getElem?_cons_zero, Option.some.injEq] at ha hb
        simp [operators.zipWith, ha, hb]
      | succ n =>
        simp only [List.getElem?_cons_succ] at ha hb
        have h := ih ys n a b ha hb
        simpa [operators.zipWith] using h

/-- A left fold peels off the last element on the outside. -/
theorem reduce_append_single {α β : Type} (f : β → α → β) :
    ∀ (xs : List α) (s : β) (x : α),
      operators.reduce f s (xs ++ [x]) = f (operators.reduce f s xs) x := by
  intro xs
  induction xs with
  | nil => intro s x; rfl
  | cons y ys ih => intro s x; simpa [operators.reduce] using ih (f s y) x

/-- C3: `operators.max` returns the greater operand (it agrees with the
order-theoretic maximum), ties (`x = y`) return the value of the second
operand, and `max(3,3) = 3`, `max(3,5) = 5`, `max(5,3) = 5`. -/
theorem claim_C3 :
    (∀ x y : ℚ, operators.max x y = Max.max x y) ∧
    (∀ x y : ℚ, x ≤ operators.max x y ∧ y ≤ operators.max x y ∧
      (operators.max x y = x ∨ operators.max x y = y)) ∧
    (∀ x y : ℚ, x = y → operators.max x y = y) ∧
    operators.max 3 3 = 3 ∧ operators.max 3 5 = 5 ∧ operators.max 5 3 = 5 := by
  have hmax : ∀ x y : ℚ, operators.max x y = Max.max x y := by
    intro x y
    rcases le_or_lt y x with h | h
    · simp [operators.max, ge_iff_le, h, max_eq_left h]
    · simp [operators.max, ge_iff_le, not_le.mpr h, max_eq_right h.le]
  refine ⟨hmax, ?_, ?_, ?_, ?_, ?_⟩
  · intro x y
    rw [hmax]
    exact ⟨le_max_left x y, le_max_right x y, max_choice x y⟩
  · intro x y h
    subst h
    simp [operators.max]
  · norm_num [operators.max]
  · norm_num [operators.max]
  · norm_num [operators.max]

/-- Witness for C3 at the tie `x = y = 2`. -/
theorem claim_C3_witness : operators.max 2 2 = 2 :=
  claim_C3.2.2.1 2 2 rfl

/-- C7: `operators.inv` fails with DomainError exactly on `x = 0` and
otherwise returns `1 / x` (in particular `inv 2 = 1/2`); `log_back` fails
with DomainError exactly on `x ≤ 0` and otherwise returns
`g * (1 / x)`; and `operators.log` performs no domain check itself — it
succeeds on every input. -/
theorem claim_C7 :
    (∀ x : ℚ, operators.inv x = .error .domainError ↔ x = 0) ∧
    (∀ x : ℚ, x ≠ 0 → operators.inv x = .ok (1 / x)) ∧
    operators.inv 2 = .ok (1 / 2) ∧
    (∀ x g : ℚ, operators.log_back x g = .error .domainError ↔ x ≤ 0) ∧
    (∀ x g : ℚ, ¬x ≤ 0 → operators.log_back x g = .ok (g * (1 / x))) ∧
    (∀ (f : ℚ → ℚ) (x : ℚ), operators.log f x = .ok (f x)) := by
  refine ⟨?_, ?_, ?_, ?_, ?_, ?_⟩
  · intro x
    unfold operators.inv
    split_ifs with h <;> simp [h]
  · intro x h
    simp [operators.inv, h]
  · norm_num [operators.inv]
  · intro x g
    unfold operators.log_back
    split_ifs with h <;> simp [h]
  · intro x g h
    simp [operators.log_back, h]
  · intro f x
    rfl

/-- Witness for C7 at `inv 3` and `log_back 2 6`. -/
theorem claim_C7_witness :
    operators.inv 3 = .ok (1 / 3) ∧ operators.log_back 2 6 = .ok (6 * (1 / 2)) :=
  ⟨claim_C7.2.1 3 (by norm_num), claim_C7.2.2.2.2.1 2 6 (by norm_num)⟩

/-- C8: `operators.zipWith f` produces a list whose length is the shorter
input length and whose `i`-th element is `f` of the `i`-th elements of the
inputs; `zipWith add [1,2,3] [10,20] = [11,22]`; and `addLists` is the
`add` specialization. -/
theorem claim_C8 :
    (∀ (α β γ : Type) (f : α → β → γ) (xs : List α) (ys : List β),
      (operators.zipWith f xs ys).length = min xs.length ys.length) ∧
    (∀ (α β γ : Type) (f : α → β → γ) (xs : List α) (ys : List β) (i : ℕ) (a : α) (b : β),
      xs[i]? = some a → ys[i]? = some b →
        (operators.zipWith f xs ys)[i]? = some (f a b)) ∧
    operators.zipWith operators.add [1, 2, 3] [10, 20] = [11, 22] ∧
    (∀ l1 l2 : List ℚ, operators.addLists l1 l2 = operators.zipWith operators.add l1 l2) := by
  refine ⟨?_, ?_, ?_, ?_⟩
  · intro α β γ f xs ys
    simp [operators.zipWith]
  · intro α β γ f xs ys i a b ha hb
    exact zipWith_getElem_some f xs ys i a b ha hb
  · norm_num [operators.zipWith, operators.add, List.zip]
  · intro l1 l2
    rfl

/-- Witness for C8 at index 1 of `zipWith add [1,2,3] [10,20]`. -/
theorem claim_C8_witness :
    (operators.zipWith operators.add [1, 2, 3] [10, 20])[1]? = some (operators.add 2 20) :=
  claim_C8.2.1 ℚ ℚ ℚ operators.add [1, 2, 3] [10, 20] 1 2 20 rfl rfl

/-- C9: `operators.reduce f start` is the left fold seeded with `start`:
it returns `start` on the empty list and peels the last element as the
outermost application; `reduce add 0` gives `0` on `[]` and `6` on
`[1,2,3]`; `sum` and `prod` are the `add`/0 and `mul`/1
specializations. -/
theorem claim_C9 :
    (∀ (α β : Type) (f : β → α → β) (s : β), operators.reduce f s ([] : List α) = s) ∧
    (∀ (α β : Type) (f : β → α → β) (s : β) (xs : List α) (x : α),
      operators.reduce f s (xs ++ [x]) = f (operators.reduce f s xs) x) ∧
    operators.reduce operators.add 0 ([] : List ℚ) = 0 ∧
    operators.reduce operators.add 0 [(1 : ℚ), 2, 3] = 6 ∧
    (∀ l : List ℚ, operators.sum l = operators.reduce operators.add 0 l) ∧
    (∀ l : List ℚ, operators.prod l = operators.reduce operators.mul 1 l) := by
  refine ⟨?_, ?_, ?_, ?_, ?_, ?_⟩
  · intro α β f s
    rfl
  · intro α β f s xs x
    exact reduce_append_single f xs s x
  · rfl
  · norm_num [operators.reduce, operators.add]
  · intro l
    rfl
  · intro l
    rfl

/-- Reading back the key just written into a dict finds the written
value. -/
theorem dictLookup_dictInsert {α : Type} :
    ∀ (l : List (String × α)) (k : String) (v : α),
      dictLookup (dictInsert l k v) k = some v := by
  intro l
  induction l with
  | nil => intro k v; simp [dictInsert, dictLookup]
  | cons p rest ih =>
    intro k v
    obtain ⟨n, x⟩ := p
    by_cases h : n = k
    · simp [dictInsert, dictLookup, h]
    · simp [dictInsert, dictLookup, h, ih k v]

/-- Reading back the key just written into a child dict finds the written
module. -/
theorem ModList.lookup_insert (cs : ModList) (k : String) (c : Module) :
    (cs.insert k c).lookup k = some c := by
  match cs with
  | .nil => simp [ModList.insert, ModList.lookup]
  | .cons n m rest =>
    by_cases h : n = k
    · simp [ModList.insert, ModList.lookup, h]
    · simp [ModList.insert, ModList.lookup, h, ModList.lookup_insert rest k c]

mutual
/-- Extending the prefix of the `named_parameters` traversal on the left
prepends that extension to every produced name. -/
theorem Module.namedAux_shift (m : Module) (a b : String) :
    Module.namedParametersAux m (a ++ b)
      = (Module.namedParametersAux m b).map (fun r => (a ++ r.1, r.2)) := by
  match m with
  | .mk ps cs t =>
    simp [Module.namedParametersAux, ModList.namedAuxList_shift cs a b, List.map_map,
      Function.comp, String.append_assoc]
/-- Prefix extension, for the traversal of a child dict. -/
theorem ModList.namedAuxList_shift (ms : ModList) (a b : String) :
    ModList.namedParametersAux ms (a ++ b)
      = (ModList.namedParametersAux ms b).map (fun r => (a ++ r.1, r.2)) := by
  match ms with
  | .nil => simp [ModList.namedParametersAux]
  | .cons n m rest =>
    have h1 := Module.namedAux_shift m a (b ++ n ++ ".")
    have h2 := ModList.namedAuxList_shift rest a b
    simp only [ModList.namedParametersAux, String.append_assoc] at h1 ⊢
    rw [h1, h2, List.map_append]
end

/-- The child-dict part of the traversal, phrased compositionally: each
child contributes its own `named_parameters` with `childname.` prepended
to every name. -/
theorem ModList.aux_empty_flatten (cs : ModList) :
    ModList.namedParametersAux cs ""
      = (cs.toList.map fun c =>
          (c.2.named_parameters).map fun q => (c.1 ++ "." ++ q.1, q.2)).flatten := by
  match cs with
  | .nil => simp [ModList.namedParametersAux, ModList.toList]
  | .cons n m rest =>
    have hm : Module.namedParametersAux m (n ++ ".")
        = (Module.namedParametersAux m "").map (fun r => ((n ++ ".") ++ r.1, r.2)) := by
      have h := Module.namedAux_shift m (n ++ ".") ""
      rwa [String.append_empty] at h
    simp only [ModList.namedParametersAux, ModList.toList, List.map_cons, List.flatten_cons,
      String.empty_append, ModList.aux_empty_flatten rest, Module.named_parameters]
    rw [hm]

mutual
/-- After `_set_mode_recursive(b)`, every module of the tree has
`training = b`. -/
theorem Module.setMode_allTraining (m : Module) (b : Bool) :
    (m.set_mode_recursive b).allTraining b = true := by
  match m with
  | .mk ps cs t =>
    simp [Module.set_mode_recursive, Module.allTraining, ModList.setModeAll_allTraining cs b]
/-- After `setModeAll b`, every module of a child dict satisfies
`allTraining b`. -/
theorem ModList.setModeAll_allTraining (ms : ModList) (b : Bool) :
    (ms.setModeAll b).allTraining b = true := by
  match ms with
  | .nil => rfl
  | .cons n m rest =>
    simp [ModList.setModeAll, ModList.allTraining,
      Module.setMode_allTraining m b, ModList.setModeAll_allTraining rest b]
end

/-- The fused `__call__` dispatch equals dispatching on the result of
`__getattr__`, confirming the fusion faithful. -/
theorem ModList.callForward_lookup (cs : ModList) :
    cs.callForward
      = match cs.lookup "forward" with
        | some c => c.call
        | none => .error .unimplemented := by
  match cs with
  | .nil => rfl
  | .cons n m rest =>
    by_cases h : n = "forward"
    · simp [ModList.callForward, ModList.lookup, h]
    · simp [ModList.callForward, ModList.lookup, h, ModList.callForward_lookup rest]

/-- `Module.call` is the dispatch on `Module.getattr "forward"`: the
parameter dict is consulted first, then the child dict, then the `None`
sentinel case fails. -/
theorem Module.call_getattr_forward (m : Module) :
    m.call
      = match m.getattr "forward" with
        | .param _ => .error .notCallable
        | .child c => c.call
        | .absent => .error .unimplemented := by
  match m with
  | .mk ps cs t =>
    simp only [Module.call, Module.getattr, Module.params, Module.children]
    cases h : dictLookup ps "forward" with
    | some p => rfl
    | none =>
      simp only [ModList.callForward_lookup cs]
      cases hc : cs.lookup "forward" <;> rfl

mutual
/-- No `__call__` on any module of this class can produce a value: the
class defines no `forward` implementation anywhere. -/
theorem Module.call_ne_ok (m : Module) : ∀ v : Value, m.call ≠ Except.ok v := by
  match m with
  | .mk ps cs t =>
    intro v
    simp only [Module.call]
    cases h : dictLookup ps "forward" with
    | some p => simp
    | none => exact ModList.callForward_ne_ok cs v
/-- No `callForward` search over a child dict can produce a value. -/
theorem ModList.callForward_ne_ok (ms : ModList) : ∀ v : Value, ms.callForward ≠ Except.ok v := by
  match ms with
  | .nil => intro v; simp [ModList.callForward]
  | .cons n m rest =>
    intro v
    simp only [ModList.callForward]
    by_cases h : n = "forward"
    · simpa [h] using Module.call_ne_ok m v
    · simpa [h] using ModList.callForward_ne_ok rest v
end

/-- C1: `named_parameters` is the depth-first pre-order traversal — a
module's own parameters first (unprefixed at the root), then, in insertion
order, each child's entire `named_parameters` with `childname.` prepended
to every name; in particular a root with child "a" holding parameter "w"
yields exactly the pair `("a.w", that parameter)`. -/
theorem claim_C1 :
    (∀ (ps : List (String × Parameter)) (cs : ModList) (t : Bool),
      (Module.mk ps cs t).named_parameters
        = ps ++ (cs.toList.map fun c =>
            (c.2.named_parameters).map fun q => (c.1 ++ "." ++ q.1, q.2)).flatten) ∧
    (Module.mk [] (.cons "a" (.mk [("w", ⟨5, some "w"⟩)] .nil true) .nil) true).named_parameters
      = [("a.w", ⟨5, some "w"⟩)] ∧
    ("a.w", (⟨5, some "w"⟩ : Parameter)) ∈
      (Module.mk [] (.cons "a" (.mk [("w", ⟨5, some "w"⟩)] .nil true) .nil) true).named_parameters := by
  refine ⟨?_, by rfl, by decide⟩
  intro ps cs t
  simp [Module.named_parameters, Module.namedParametersAux, String.empty_append,
    ModList.aux_empty_flatten cs]

/-- C2: calling a bare `Module` (empty dicts, so no `forward` override)
errors with the forward-unimplemented failure; more generally the call
errors that way whenever attribute lookup of "forward" yields the `None`
sentinel; and no call on any module of this class ever silently returns a
value. -/
theorem claim_C2 :
    (∀ t : Bool, (Module.mk [] .nil t).call = .error .unimplemented) ∧
    (∀ m : Module, m.getattr "forward" = .absent → m.call = .error .unimplemented) ∧
    (∀ (m : Module) (v : Value), m.call ≠ .ok v) := by
  refine ⟨fun t => rfl, ?_, Module.call_ne_ok⟩
  intro m h
  rw [Module.call_getattr_forward m, h]

/-- Witness for C2: a freshly constructed `Module()` has no registered
"forward" attribute and calling it errors. -/
theorem claim_C2_witness : Module.init.call = .error .unimplemented :=
  claim_C2.2.1 Module.init rfl

/-- C4: `__getattr__` is total — its result is always one of the three
explicit outcomes — and it returns the registered parameter when the key
is in the parameter dict, else the registered child module when the key is
in the child dict, else the `None` sentinel. -/
theorem claim_C4 :
    (∀ (m : Module) (k : String),
      m.getattr k = .absent ∨ (∃ p, m.getattr k = .param p) ∨ ∃ c, m.getattr k = .child c) ∧
    (∀ (m : Module) (k : String) (p : Parameter),
      dictLookup m.params k = some p → m.getattr k = .param p) ∧
    (∀ (m : Module) (k : String) (c : Module),
      dictLookup m.params k = none → m.children.lookup k = some c →
        m.getattr k = .child c) ∧
    (∀ (m : Module) (k : String),
      dictLookup m.params k = none → m.children.lookup k = none →
        m.getattr k = .absent) := by
  refine ⟨?_, ?_, ?_, ?_⟩
  · intro m k
    rcases h : m.getattr k with p | c | _
    · exact Or.inr (Or.inl ⟨p, rfl⟩)
    · exact Or.inr (Or.inr ⟨c, rfl⟩)
    · exact Or.inl rfl
  · intro m k p hp
    simp [Module.getattr, hp]
  · intro m k c hp hc
    simp [Module.getattr, hp, hc]
  · intro m k hp hc
    simp [Module.getattr, hp, hc]

/-- Witness for C4: lookup of an unregistered name on a fresh module
returns the sentinel. -/
theorem claim_C4_witness : Module.init.getattr "missing" = .absent :=
  claim_C4.2.2.2 Module.init "missing" rfl rfl

/-- C5: `train()` sets `training = true` and `eval()` sets
`training = false` on the module and every descendant; `train()` then
`eval()` leaves every level false, and `eval()` then `train()` leaves
every level true. -/
theorem claim_C5 :
    ∀ m : Module,
      (m.train).allTraining true = true ∧
      (m.eval).allTraining false = true ∧
      ((m.train).eval).allTraining false = true ∧
      ((m.eval).train).allTraining true = true := by
  intro m
  exact ⟨Module.setMode_allTraining m true, Module.setMode_allTraining m false,
    Module.setMode_allTraining (m.train) false, Module.setMode_allTraining (m.eval) true⟩

/-- C6: the two registration paths agree — `add_parameter k v` produces
exactly the module state of assigning `Parameter(v, k)` to attribute `k`,
both write the same dict entry, and reading the key back finds it. -/
theorem claim_C6 :
    ∀ (m : Module) (k : String) (v : Value),
      (m.add_parameter k v).2 = ⟨v, some k⟩ ∧
      (m.add_parameter k v).1 = m.setattr k (.param ⟨v, some k⟩) ∧
      (∀ p : Parameter, (m.setattr k (.param p)).params = dictInsert m.params k p) ∧
      dictLookup ((m.add_parameter k v).1).params k = some ⟨v, some k⟩ ∧
      dictLookup ((m.setattr k (.param ⟨v, some k⟩)).params) k = some ⟨v, some k⟩ := by
  intro m k v
  match m with
  | .mk ps cs t =>
    refine ⟨rfl, rfl, fun p => rfl, ?_, ?_⟩ <;>
      simpa [Module.add_parameter, Module.setattr, Module.params] using
        dictLookup_dictInsert ps k ⟨v, some k⟩

/-- C10: the parameter dict shadows the child dict in `__getattr__`: when
a key is registered in both (which `add_module` followed by
`add_parameter` produces, neither touching the other dict), lookup
returns the parameter. -/
theorem claim_C10 :
    (∀ (m : Module) (k : String) (p : Parameter) (c : Module),
      dictLookup m.params k = some p → m.children.lookup k = some c →
        m.getattr k = .param p) ∧
    (∀ (m : Module) (k : String) (v : Value) (c : Module),
      dictLookup (((m.add_module k c).add_parameter k v).1).params k = some ⟨v, some k⟩ ∧
      (((m.add_module k c).add_parameter k v).1).children.lookup k = some c ∧
      (((m.add_module k c).add_parameter k v).1).getattr k = .param ⟨v, some k⟩) := by
  constructor
  · intro m k p c hp _
    simp [Module.getattr, hp]
  · intro m k v c
    match m with
    | .mk ps cs t =>
      refine ⟨?_, ?_, ?_⟩
      · simpa [Module.add_module, Module.add_parameter, Module.params] using
          dictLookup_dictInsert ps k ⟨v, some k⟩
      · simpa [Module.add_module, Module.add_parameter, Module.children] using
          ModList.lookup_insert cs k c
      · simp [Module.add_module, Module.add_parameter, Module.getattr, Module.params,
          dictLookup_dictInsert ps k (⟨v, some k⟩ : Parameter)]

/-- Witness for C10: a module holding both a parameter and a child under
the name "x" resolves "x" to the parameter. -/
theorem claim_C10_witness :
    (Module.mk [("x", ⟨7, some "x"⟩)] (.cons "x" Module.init .nil) true).getattr "x"
      = .param ⟨7, some "x"⟩ :=
  claim_C10.1 (Module.mk [("x", ⟨7, some "x"⟩)] (.cons "x" Module.init .nil) true)
    "x" ⟨7, some "x"⟩ Module.init rfl rfl

end Minitorch
